import Mathlib

/-!
Shallow embedding of AdGuardHome's persistent-configuration subsystem
(`config.go`): the in-memory configuration store, the YAML load path
(`readConfigFile`, `parseConfig`, `getLogSettings`), the persist path
(`configuration.write`, `writeAllConfigs`) and the filter normalization
invoked at the end of a successful parse.

The external YAML library (gopkg.in/yaml.v2) is modelled at the level the
code uses it: `Marshal` renders a document tree built from the struct
fields in declaration order (fields tagged `yaml:"-"` excluded, inline
structs spliced in place), and `Unmarshal` first parses the bytes into a
document tree — failing without touching the target value when the bytes
are not well-formed YAML — and then decodes the tree into the target,
field by field, by yaml tag, leaving fields absent from the tree at their
previous values. The byte layer (text rendering/parsing) is abstracted as
a `YamlLib` record; the struct-tag driven tree encode/decode is embedded
concretely below.
-/

/-- A YAML document tree: scalars, sequences, and key-ordered mappings. -/
inductive Yaml where
  | str (s : String)
  | int (n : Int)
  | bool (b : Bool)
  | seq (xs : List Yaml)
  | map (kvs : List (String × Yaml))

/-- The byte layer of the YAML library: rendering a tree to bytes and
parsing bytes back to a tree (`.error` when the bytes are not well-formed
YAML). -/
structure YamlLib (β : Type) where
  render : Yaml → β
  parse : β → Except String Yaml

/-- The trivial byte layer whose byte type is the tree itself; used to
instantiate the abstract layer on concrete runs. -/
def idYamlLib : YamlLib Yaml where
  render := fun v => v
  parse := fun v => Except.ok v

/-- A byte layer on which parsing always fails, regardless of input. -/
def failYamlLib : YamlLib Yaml where
  render := fun v => v
  parse := fun _ => Except.error "yaml: did not find expected node content"

/-- State of one path on the filesystem, as seen by `readConfigFile`:
missing, unreadable (I/O error), or present with contents. -/
inductive FileContent (β : Type) where
  | absent
  | ioError (msg : String)
  | present (b : β)

/-- The filesystem: contents by path. -/
def FS (β : Type) : Type := String → FileContent β

/-- `logSettings` (config.go): the logging sub-configuration, extractable
independently of the rest of the configuration. -/
structure logSettings where
  LogFile : String
  Verbose : Bool
deriving DecidableEq

/-- Modelled from the spec: `dnsforward.FilteringConfig`, the DNS-engine-owned
filtering-behavior configuration embedded (inline) in the DNS
sub-configuration for serialization; its keys are protection-enabled,
filtering-enabled, blocked-response-ttl, query-log-enabled, ratelimit,
refuse-any, bootstrap-dns. Its definition lives in the dnsforward package,
outside this slice. -/
structure FilteringConfig where
  ProtectionEnabled : Bool
  FilteringEnabled : Bool
  BlockedResponseTTL : Int
  QueryLogEnabled : Bool
  Ratelimit : Int
  RefuseAny : Bool
  BootstrapDNS : String
deriving DecidableEq

/-- `dnsConfig` (config.go): bind address/port, the inline filtering
configuration, and the upstream resolver list. Field ordering mirrors the
source struct; yaml fields mirror this ordering. -/
structure dnsConfig where
  BindHost : String
  Port : Int
  FilteringConfig : FilteringConfig
  UpstreamDNS : List String
deriving DecidableEq

/-- `defaultDNS` (config.go): the built-in upstream resolver pair. -/
def defaultDNS : List String := ["tls://1.1.1.1", "tls://1.0.0.1"]

/-- Modelled from the spec: `dnsforward.TLSConfig`, the DNS-engine-owned
certificate/key configuration embedded (inline) in the TLS settings for
serialization; defined outside this slice. -/
structure TLSConfig where
  CertificateChain : String
  PrivateKey : String
deriving DecidableEq

/-- `tlsConfigSettings` (config.go): the persisted half of the TLS
sub-configuration. The yaml tag of `Enabled` is the literal string
`"enaled"` in the source (config.go line 66), while its json tag is
`"enabled"`. -/
structure tlsConfigSettings where
  Enabled : Bool
  ServerName : String
  ForceHTTPS : Bool
  PortHTTPS : Int
  PortDNSOverTLS : Int
  TLSConfig : TLSConfig
deriving DecidableEq

/-- `tlsConfigStatus` (config.go): derived-only certificate/key status;
every field is tagged `yaml:"-"` and is never persisted. The two
`time.Time` fields are modelled as integers. -/
structure tlsConfigStatus where
  ValidChain : Bool
  Subject : String
  Issuer : String
  NotBefore : Int
  NotAfter : Int
  DNSNames : List String
  StatusCertificate : String
  ValidKey : Bool
  KeyType : String
  Warning : String
  WarningValidation : String
deriving DecidableEq

/-- `tlsConfig` (config.go): persisted settings (inline) plus derived
status (tagged `yaml:"-"`). -/
structure tlsConfig where
  tlsConfigSettings : tlsConfigSettings
  tlsConfigStatus : tlsConfigStatus
deriving DecidableEq

/-- Modelled from the spec: a Filter entry — identifier (0 when unset),
enabled flag, source URL, display name — persisted under the keys
id, enabled, url, name. The Go struct (`filter`, embedding
`dnsfilter.Filter` for the identifier) is defined outside this slice. -/
structure filter where
  ID : Int
  Enabled : Bool
  URL : String
  Name : String
deriving DecidableEq

/-- Modelled from the spec: `dhcpd.ServerConfig`, the DHCP-server-owned
configuration embedded opaquely for serialization; defined outside this
slice, so modelled as an opaque scalar payload. -/
structure DhcpServerConfig where
  opaquePayload : String
deriving DecidableEq

/-- `configuration` (config.go): the root settings entity. Unexported Go
fields (`ourConfigFilename`, `ourWorkingDir`, `firstRun`) are never
serialized; the `sync.RWMutex` field (tagged `yaml:"-"`) is not modelled.
Field ordering mirrors the source struct (yaml fields mirror this
ordering), with `logSettings` inline between DHCP and SchemaVersion. -/
structure configuration where
  ourConfigFilename : String
  ourWorkingDir : String
  firstRun : Bool
  BindHost : String
  BindPort : Int
  AuthName : String
  AuthPass : String
  Language : String
  DNS : dnsConfig
  TLS : tlsConfig
  Filters : List filter
  UserRules : List String
  DHCP : DhcpServerConfig
  logSettings : logSettings
  SchemaVersion : Int
deriving DecidableEq

/-- Modelled from the spec: the current schema version integer, recorded
with the configuration; its value is owned by the upgrade module, outside
this slice (the exact number is irrelevant to the claims here). -/
def currentSchemaVersion : Int := 2

/-- `filepath.IsAbs` for Unix paths. -/
def isAbs (p : String) : Bool := p.startsWith "/"

/-- `filepath.Join` restricted to the use here (no cleaning needed). -/
def pathJoin (dir name : String) : String := dir ++ "/" ++ name

/-- `configuration.getConfigFilename` (config.go): absolute filename
passthrough, else joined to the working directory. -/
def configuration.getConfigFilename (c : configuration) : String :=
  if isAbs c.ourConfigFilename then c.ourConfigFilename
  else pathJoin c.ourWorkingDir c.ourConfigFilename

/-- `config` (config.go): the global store initialized to built-in default
values before any file is read. Fields not listed in the Go literal take
Go zero values. -/
def config : configuration where
  ourConfigFilename := "AdGuardHome.yaml"
  ourWorkingDir := ""
  firstRun := false
  BindHost := "0.0.0.0"
  BindPort := 3000
  AuthName := ""
  AuthPass := ""
  Language := ""
  DNS :=
    { BindHost := "0.0.0.0"
      Port := 53
      FilteringConfig :=
        { ProtectionEnabled := true
          FilteringEnabled := true
          BlockedResponseTTL := 10
          QueryLogEnabled := true
          Ratelimit := 20
          RefuseAny := true
          BootstrapDNS := "8.8.8.8:53" }
      UpstreamDNS := defaultDNS }
  TLS :=
    { tlsConfigSettings :=
        { Enabled := false
          ServerName := ""
          ForceHTTPS := false
          PortHTTPS := 443
          PortDNSOverTLS := 853
          TLSConfig := { CertificateChain := "", PrivateKey := "" } }
      tlsConfigStatus :=
        { ValidChain := false, Subject := "", Issuer := "", NotBefore := 0
          NotAfter := 0, DNSNames := [], StatusCertificate := ""
          ValidKey := false, KeyType := "", Warning := ""
          WarningValidation := "" } }
  Filters :=
    [ { ID := 1, Enabled := true,
        URL := "https://adguardteam.github.io/AdGuardSDNSFilter/Filters/filter.txt",
        Name := "AdGuard Simplified Domain Names filter" },
      { ID := 2, Enabled := false, URL := "https://adaway.org/hosts.txt",
        Name := "AdAway" },
      { ID := 3, Enabled := false, URL := "https://hosts-file.net/ad_servers.txt",
        Name := "hpHosts - Ad and Tracking servers only" },
      { ID := 4, Enabled := false,
        URL := "http://www.malwaredomainlist.com/hostslist/hosts.txt",
        Name := "MalwareDomainList.com Hosts List" } ]
  UserRules := []
  DHCP := { opaquePayload := "" }
  logSettings := { LogFile := "", Verbose := false }
  SchemaVersion := currentSchemaVersion

/-! ## Tree-level marshalling (yaml.v2 `Marshal` over the struct tags) -/

/-- Key/value pairs of `FilteringConfig` (inline in the dns mapping). -/
def encodeFilteringConfig (f : FilteringConfig) : List (String × Yaml) :=
  [ ("protection-enabled", Yaml.bool f.ProtectionEnabled),
    ("filtering-enabled", Yaml.bool f.FilteringEnabled),
    ("blocked-response-ttl", Yaml.int f.BlockedResponseTTL),
    ("query-log-enabled", Yaml.bool f.QueryLogEnabled),
    ("ratelimit", Yaml.int f.Ratelimit),
    ("refuse-any", Yaml.bool f.RefuseAny),
    ("bootstrap-dns", Yaml.str f.BootstrapDNS) ]

/-- The dns mapping, fields in struct order with the inline filtering
configuration spliced between port and upstream_dns. -/
def encodeDnsConfig (d : dnsConfig) : Yaml :=
  Yaml.map
    ([ ("bind_host", Yaml.str d.BindHost),
       ("port", Yaml.int d.Port) ]
     ++ encodeFilteringConfig d.FilteringConfig
     ++ [ ("upstream_dns", Yaml.seq (d.UpstreamDNS.map Yaml.str)) ])

/-- Key/value pairs of `TLSConfig` (inline in the tls mapping). -/
def encodeTLSConfig (t : TLSConfig) : List (String × Yaml) :=
  [ ("certificate_chain", Yaml.str t.CertificateChain),
    ("private_key", Yaml.str t.PrivateKey) ]

/-- The tls mapping: only `tlsConfigSettings` is serialized (the status
half is tagged `yaml:"-"`); the Enabled flag is written under the source
yaml tag, the literal key "enaled". -/
def encodeTlsConfig (t : tlsConfig) : Yaml :=
  Yaml.map
    ([ ("enaled", Yaml.bool t.tlsConfigSettings.Enabled),
       ("server_name", Yaml.str t.tlsConfigSettings.ServerName),
       ("force_https", Yaml.bool t.tlsConfigSettings.ForceHTTPS),
       ("port_https", Yaml.int t.tlsConfigSettings.PortHTTPS),
       ("port_dns_over_tls", Yaml.int t.tlsConfigSettings.PortDNSOverTLS) ]
     ++ encodeTLSConfig t.tlsConfigSettings.TLSConfig)

/-- One filters[] element. -/
def encodeFilter (f : filter) : Yaml :=
  Yaml.map
    [ ("id", Yaml.int f.ID),
      ("enabled", Yaml.bool f.Enabled),
      ("url", Yaml.str f.URL),
      ("name", Yaml.str f.Name) ]

/-- The dhcp mapping payload (opaque). -/
def encodeDhcp (d : DhcpServerConfig) : Yaml := Yaml.str d.opaquePayload

/-- The document tree `yaml.Marshal(&config)` builds: top-level keys in
struct declaration order, the inline `logSettings` spliced between dhcp
and schema_version, unexported fields and the `yaml:"-"` mutex skipped. -/
def encodeConfiguration (c : configuration) : Yaml :=
  Yaml.map
    [ ("bind_host", Yaml.str c.BindHost),
      ("bind_port", Yaml.int c.BindPort),
      ("auth_name", Yaml.str c.AuthName),
      ("auth_pass", Yaml.str c.AuthPass),
      ("language", Yaml.str c.Language),
      ("dns", encodeDnsConfig c.DNS),
      ("tls", encodeTlsConfig c.TLS),
      ("filters", Yaml.seq (c.Filters.map encodeFilter)),
      ("user_rules", Yaml.seq (c.UserRules.map Yaml.str)),
      ("dhcp", encodeDhcp c.DHCP),
      ("log_file", Yaml.str c.logSettings.LogFile),
      ("verbose", Yaml.bool c.logSettings.Verbose),
      ("schema_version", Yaml.int c.SchemaVersion) ]

/-- Top-level keys of a mapping document, in emitted order. -/
def yamlKeys : Yaml → List String
  | Yaml.map kvs => kvs.map Prod.fst
  | _ => []

/-! ## Tree-level unmarshalling (yaml.v2 decode over the struct tags):
look each field up by its yaml tag, keep the previous value when the key
is missing or its value has the wrong shape, ignore unknown keys. -/

/-- Key lookup in a mapping's pair list (first match wins). -/
def yLookup : List (String × Yaml) → String → Option Yaml
  | [], _ => none
  | (k, v) :: rest, key => if k = key then some v else yLookup rest key

/-- Decode a string field: keep `old` when missing or not a scalar string. -/
def getStr (m : List (String × Yaml)) (key : String) (old : String) : String :=
  match yLookup m key with
  | some (Yaml.str s) => s
  | _ => old

/-- Decode an integer field. -/
def getInt (m : List (String × Yaml)) (key : String) (old : Int) : Int :=
  match yLookup m key with
  | some (Yaml.int n) => n
  | _ => old

/-- Decode a boolean field. -/
def getBool (m : List (String × Yaml)) (key : String) (old : Bool) : Bool :=
  match yLookup m key with
  | some (Yaml.bool b) => b
  | _ => old

/-- Decode one sequence element into a string (fresh zero value on shape
mismatch, as yaml.v2 decodes each element into a fresh zero value). -/
def decodeStrElem : Yaml → String
  | Yaml.str s => s
  | _ => ""

/-- Decode a list-of-strings field. -/
def getStrList (m : List (String × Yaml)) (key : String) (old : List String) :
    List String :=
  match yLookup m key with
  | some (Yaml.seq xs) => xs.map decodeStrElem
  | _ => old

/-- Decode the inline `FilteringConfig` fields from the dns mapping. -/
def decodeFilteringConfig (m : List (String × Yaml)) (old : FilteringConfig) :
    FilteringConfig where
  ProtectionEnabled := getBool m "protection-enabled" old.ProtectionEnabled
  FilteringEnabled := getBool m "filtering-enabled" old.FilteringEnabled
  BlockedResponseTTL := getInt m "blocked-response-ttl" old.BlockedResponseTTL
  QueryLogEnabled := getBool m "query-log-enabled" old.QueryLogEnabled
  Ratelimit := getInt m "ratelimit" old.Ratelimit
  RefuseAny := getBool m "refuse-any" old.RefuseAny
  BootstrapDNS := getStr m "bootstrap-dns" old.BootstrapDNS

/-- Decode the dns sub-mapping. -/
def decodeDnsConfig (y : Yaml) (old : dnsConfig) : dnsConfig :=
  match y with
  | Yaml.map m =>
    { BindHost := getStr m "bind_host" old.BindHost
      Port := getInt m "port" old.Port
      FilteringConfig := decodeFilteringConfig m old.FilteringConfig
      UpstreamDNS := getStrList m "upstream_dns" old.UpstreamDNS }
  | _ => old

/-- Decode the inline `TLSConfig` fields from the tls mapping. -/
def decodeTLSConfig (m : List (String × Yaml)) (old : TLSConfig) : TLSConfig where
  CertificateChain := getStr m "certificate_chain" old.CertificateChain
  PrivateKey := getStr m "private_key" old.PrivateKey

/-- Decode the tls sub-mapping: only the settings half is read (the status
half is tagged `yaml:"-"`); the Enabled flag is read back under the same
source yaml tag it is written with, the literal key "enaled". -/
def decodeTlsConfig (y : Yaml) (old : tlsConfig) : tlsConfig :=
  match y with
  | Yaml.map m =>
    { tlsConfigSettings :=
        { Enabled := getBool m "enaled" old.tlsConfigSettings.Enabled
          ServerName := getStr m "server_name" old.tlsConfigSettings.ServerName
          ForceHTTPS := getBool m "force_https" old.tlsConfigSettings.ForceHTTPS
          PortHTTPS := getInt m "port_https" old.tlsConfigSettings.PortHTTPS
          PortDNSOverTLS :=
            getInt m "port_dns_over_tls" old.tlsConfigSettings.PortDNSOverTLS
          TLSConfig := decodeTLSConfig m old.tlsConfigSettings.TLSConfig }
      tlsConfigStatus := old.tlsConfigStatus }
  | _ => old

/-- Decode one filters[] element into a fresh zero-valued entry. -/
def decodeFilter (y : Yaml) : filter :=
  match y with
  | Yaml.map m =>
    { ID := getInt m "id" 0
      Enabled := getBool m "enabled" false
      URL := getStr m "url" ""
      Name := getStr m "name" "" }
  | _ => { ID := 0, Enabled := false, URL := "", Name := "" }

/-- Decode the filters field. -/
def getFilters (m : List (String × Yaml)) (old : List filter) : List filter :=
  match yLookup m "filters" with
  | some (Yaml.seq xs) => xs.map decodeFilter
  | _ => old

/-- Decode the dhcp payload (opaque). -/
def decodeDhcp (y : Yaml) (old : DhcpServerConfig) : DhcpServerConfig :=
  match y with
  | Yaml.str s => { opaquePayload := s }
  | _ => old

/-- Decode a parsed document tree into the configuration, field by field
over the previous values: this is the decode half of
`yaml.Unmarshal(yamlFile, &config)`. Unexported fields and the derived
TLS status (all tagged `yaml:"-"` or invisible to yaml) are untouched. -/
def decodeConfiguration (y : Yaml) (old : configuration) : configuration :=
  match y with
  | Yaml.map m =>
    { ourConfigFilename := old.ourConfigFilename
      ourWorkingDir := old.ourWorkingDir
      firstRun := old.firstRun
      BindHost := getStr m "bind_host" old.BindHost
      BindPort := getInt m "bind_port" old.BindPort
      AuthName := getStr m "auth_name" old.AuthName
      AuthPass := getStr m "auth_pass" old.AuthPass
      Language := getStr m "language" old.Language
      DNS :=
        (match yLookup m "dns" with
         | some y => decodeDnsConfig y old.DNS
         | none => old.DNS)
      TLS :=
        (match yLookup m "tls" with
         | some y => decodeTlsConfig y old.TLS
         | none => old.TLS)
      Filters := getFilters m old.Filters
      UserRules := getStrList m "user_rules" old.UserRules
      DHCP :=
        (match yLookup m "dhcp" with
         | some y => decodeDhcp y old.DHCP
         | none => old.DHCP)
      logSettings :=
        { LogFile := getStr m "log_file" old.logSettings.LogFile
          Verbose := getBool m "verbose" old.logSettings.Verbose }
      SchemaVersion := getInt m "schema_version" old.SchemaVersion }
  | _ => old

/-- Decode a string field with type-error reporting, as yaml.v2's decode
phase does: a missing key keeps `old` without error; a present key of the
wrong shape keeps `old` and records a type error; decoding continues
either way. -/
def getStrE (m : List (String × Yaml)) (key : String) (old : String) :
    Bool × String :=
  match yLookup m key with
  | none => (false, old)
  | some (Yaml.str s) => (false, s)
  | some _ => (true, old)

/-- Decode a boolean field with type-error reporting (see `getStrE`). -/
def getBoolE (m : List (String × Yaml)) (key : String) (old : Bool) :
    Bool × Bool :=
  match yLookup m key with
  | none => (false, old)
  | some (Yaml.bool b) => (false, b)
  | some _ => (true, old)

/-- Decode a parsed document tree into a `logSettings` value — the decode
half of `yaml.Unmarshal(yamlFile, &l)`: only log_file and verbose are
read, all other top-level keys are ignored. Mirrors yaml.v2's decode
phase faithfully: a field of the wrong shape records a type error and
keeps its previous value while the other fields are still decoded, and
the collected type-error flag (the `*yaml.TypeError` the caller receives)
is returned alongside the partially decoded value; a non-mapping document
is a type error that decodes nothing. -/
def decodeLogSettingsE (y : Yaml) (old : logSettings) : Bool × logSettings :=
  match y with
  | Yaml.map m =>
    let lf := getStrE m "log_file" old.LogFile
    let vb := getBoolE m "verbose" old.Verbose
    (lf.1 || vb.1, { LogFile := lf.2, Verbose := vb.2 })
  | _ => (true, old)

/-- `yaml.Marshal(&config)` down to bytes. -/
def marshalConfiguration {β : Type} (L : YamlLib β) (c : configuration) : β :=
  L.render (encodeConfiguration c)

/-- `yaml.Unmarshal(bytes, &config)`: parse the bytes into a tree — on
parse failure return the error with the target untouched — then decode
the tree over the previous values. -/
def unmarshalConfiguration {β : Type} (L : YamlLib β) (b : β)
    (old : configuration) : Except String configuration :=
  match L.parse b with
  | Except.error e => Except.error e
  | Except.ok y => Except.ok (decodeConfiguration y old)

/-! ## Filter normalization -/

/-- Modelled from the spec: duplicate-filter removal over the loaded
sequence in its original order, keeping the first occurrence; the
duplicate key is URL equality (the spec's conservative reading). The Go
function `deduplicateFilters` is defined outside this slice. `seen` is
the set of URLs already kept. -/
def dedupFiltersAux : List filter → List String → List filter
  | [], _ => []
  | f :: rest, seen =>
    if f.URL ∈ seen then dedupFiltersAux rest seen
    else f :: dedupFiltersAux rest (f.URL :: seen)

/-- Modelled from the spec: `deduplicateFilters`. -/
def deduplicateFilters (fs : List filter) : List filter :=
  dedupFiltersAux fs []

/-- First candidate at or above `n` that is not in `used`, searched with
enough fuel that (for duplicate-free `used`) a free value is always
reached. -/
def nextFreeAux : Nat → Int → List Int → Int
  | 0, n, _ => n
  | fuel + 1, n, used => if n ∈ used then nextFreeAux fuel (n + 1) used else n

/-- The next free identifier at or above `n` given the identifiers already
in use. -/
def nextFree (n : Int) (used : List Int) : Int :=
  nextFreeAux ((used.filter (fun m => n ≤ m)).length + 1) n used

/-- Modelled from the spec: the identifier-assignment scan. Walk the
sequence in first-seen order carrying the identifiers already in use and
the next candidate (starting from 1): an entry that lacks a strictly
positive identifier or collides with one already in use is assigned the
next free value; all others keep theirs. -/
def assignIDs : List filter → List Int → Int → List filter
  | [], _, _ => []
  | f :: rest, used, next =>
    if f.ID ≤ 0 ∨ f.ID ∈ used then
      let i := nextFree next used
      { f with ID := i } :: assignIDs rest (i :: used) (i + 1)
    else
      f :: assignIDs rest (f.ID :: used) next

/-- Modelled from the spec: `updateUniqueFilterID`, assigning identifiers
in first-seen order starting from 1 (or the next free value) to every
entry that lacks one or collides with another. The Go function is defined
outside this slice. -/
def updateUniqueFilterID (fs : List filter) : List filter :=
  assignIDs fs [] 1

/-! ## Load path -/

/-- `readConfigFile` (config.go): "file does not exist" is a non-error
`none`; any other read failure is surfaced as an error; otherwise the
whole contents are returned. -/
def readConfigFile {β : Type} (fs : FS β) (c : configuration) :
    Except String (Option β) :=
  match fs c.getConfigFilename with
  | FileContent.absent => Except.ok none
  | FileContent.ioError e => Except.error e
  | FileContent.present b => Except.ok (some b)

/-- `parseConfig` (config.go): read the file (read errors are returned; a
missing file is a success that leaves the store untouched), unmarshal the
bytes into the store (a parse failure is returned with the store
untouched), then deduplicate the filters and assign unique filter
identifiers. Returns the error alongside the resulting store state. -/
def parseConfig {β : Type} (L : YamlLib β) (fs : FS β) (c : configuration) :
    Except String Unit × configuration :=
  match readConfigFile fs c with
  | Except.error e => (Except.error e, c)
  | Except.ok none => (Except.ok (), c)
  | Except.ok (some b) =>
    match L.parse b with
    | Except.error e => (Except.error e, c)
    | Except.ok y =>
      let c1 := decodeConfiguration y c
      let c2 := { c1 with
                  Filters := updateUniqueFilterID (deduplicateFilters c1.Filters) }
      (Except.ok (), c2)

/-- `getLogSettings` (config.go): start from the zero `logSettings`; on a
read error or a missing file return it as is; on a parse failure the
error is only logged and the (still zero) value is returned; on a decode
type error the error is likewise only logged and the partially decoded
value is returned; on success decode the two logging fields. Never
propagates an error. -/
def getLogSettings {β : Type} (L : YamlLib β) (fs : FS β) (c : configuration) :
    logSettings :=
  let l : logSettings := { LogFile := "", Verbose := false }
  match readConfigFile fs c with
  | Except.error _ => l
  | Except.ok none => l
  | Except.ok (some b) =>
    match L.parse b with
    | Except.error _ => l
    | Except.ok y => (decodeLogSettingsE y l).2

/-! ## Persist path -/

/-- Modelled from the spec: `safeWriteFile`, the crash-safe atomic
file-write primitive (an external collaborator): given a path, the bytes
and the filesystem it returns the new filesystem on success and `none` on
a write error. -/
def SafeWrite (β : Type) : Type := String → β → FS β → Option (FS β)

/-- `configuration.write` (config.go): with the first-run flag set,
silently decline to write and return success; otherwise marshal the store
and hand the bytes to the atomic write primitive, surfacing its failure.
Returns the error alongside the resulting filesystem. -/
def configuration.write {β : Type} (c : configuration) (L : YamlLib β)
    (sw : SafeWrite β) (fs : FS β) : Except String Unit × FS β :=
  if c.firstRun then (Except.ok (), fs)
  else
    match sw c.getConfigFilename (marshalConfiguration L c) fs with
    | none => (Except.error "Couldn't save YAML config", fs)
    | some fs2 => (Except.ok (), fs2)

/-- `writeAllConfigs` (config.go): write the configuration file; if that
fails, return its error at once; otherwise save the user filter (its
`save()` is an external collaborator, modelled as a filesystem action
returning `none` on failure) and surface its failure. -/
def writeAllConfigs {β : Type} (L : YamlLib β) (sw : SafeWrite β)
    (saveUserFilter : FS β → Option (FS β)) (c : configuration) (fs : FS β) :
    Except String Unit × FS β :=
  match c.write L sw fs with
  | (Except.error e, fs2) => (Except.error e, fs2)
  | (Except.ok _, fs2) =>
    match saveUserFilter fs2 with
    | none => (Except.error "Couldn't save the user filter", fs2)
    | some fs3 => (Except.ok (), fs3)

/-! ## Concrete byte layers, filesystems and stores used on concrete runs -/

/-- A filesystem on which every path is missing. -/
def fsAbsent : FS Yaml := fun _ => FileContent.absent

/-- A filesystem on which every path holds one scalar document. -/
def fsPresent : FS Yaml := fun _ => FileContent.present (Yaml.str "x")

/-- A filesystem on which every read fails with an I/O error. -/
def fsIOErr : FS Yaml := fun _ => FileContent.ioError "permission denied"

/-- A filesystem holding a well-formed document whose log_file value has
the wrong shape (a sequence where a string is expected) while verbose is
a well-typed true: its decode fails with a type error after the verbose
field has been decoded. -/
def fsTypeErr : FS Yaml := fun _ =>
  FileContent.present
    (Yaml.map [("log_file", Yaml.seq [Yaml.int 1]), ("verbose", Yaml.bool true)])

/-- An atomic write primitive that always fails. -/
def swFail : SafeWrite Yaml := fun _ _ _ => none

/-- An atomic write primitive that stores the bytes at the path. -/
def swStore : SafeWrite Yaml := fun path b fs =>
  some (fun p => if p = path then FileContent.present b else fs p)

/-- A filesystem recognizably produced by the user-filter save. -/
def fsMarked : FS Yaml := fun _ => FileContent.present (Yaml.str "user rules")

/-- A user-filter save that always succeeds and leaves the recognizable
filesystem `fsMarked`. -/
def saveMark : FS Yaml → Option (FS Yaml) := fun _ => some fsMarked

/-- The default store with the first-run flag set. -/
def configFirstRun : configuration := { config with firstRun := true }

/-- A store whose filter sequence holds two entries with the same URL and
no identifiers, which normalization would collapse and renumber. -/
def configDup : configuration :=
  { config with Filters :=
      [ { ID := 0, Enabled := true, URL := "https://a.example/f.txt", Name := "a" },
        { ID := 0, Enabled := true, URL := "https://a.example/f.txt", Name := "a" } ] }

/-- Helper: with the resolved path absent, `parseConfig` succeeds and
returns the store unchanged. -/
theorem parseConfig_of_absent {β : Type} (L : YamlLib β) (fs : FS β)
    (c : configuration) (h : fs c.getConfigFilename = FileContent.absent) :
    parseConfig L fs c = (Except.ok (), c) := by
  unfold parseConfig readConfigFile
  rw [h]

/-- C1: on a present file whose bytes are not parseable YAML, `parseConfig`
returns the parse error and every field of the store is equal to its
pre-call value (no partial overwrite). -/
theorem parseConfig_malformed_preserves_store {β : Type} (L : YamlLib β)
    (fs : FS β) (c : configuration) (b : β) (e : String)
    (h1 : fs c.getConfigFilename = FileContent.present b)
    (h2 : L.parse b = Except.error e) :
    parseConfig L fs c = (Except.error e, c) := by
  unfold parseConfig readConfigFile
  rw [h1]
  simp only [h2]

/-- C1 witness: a present file together with a byte layer on which parsing
fails; the store comes back exactly as it went in. -/
theorem parseConfig_malformed_preserves_store_witness :
    parseConfig failYamlLib fsPresent config =
      (Except.error "yaml: did not find expected node content", config) :=
  parseConfig_malformed_preserves_store failYamlLib fsPresent config
    (Yaml.str "x") "yaml: did not find expected node content" rfl rfl

/-- C6: with the resolved configuration path absent, loading succeeds with
no error and leaves every field of the store at its built-in default,
including bind port 3000, DNS port 53 and the built-in upstream pair. -/
theorem parseConfig_absent_keeps_defaults {β : Type} (L : YamlLib β)
    (fs : FS β) (h : fs config.getConfigFilename = FileContent.absent) :
    parseConfig L fs config = (Except.ok (), config) ∧
    config.BindPort = 3000 ∧ config.DNS.Port = 53 ∧
    config.DNS.UpstreamDNS = ["tls://1.1.1.1", "tls://1.0.0.1"] :=
  ⟨parseConfig_of_absent L fs config h, rfl, rfl, rfl⟩

/-- C6 witness: the all-absent filesystem. -/
theorem parseConfig_absent_keeps_defaults_witness :
    parseConfig idYamlLib fsAbsent config = (Except.ok (), config) ∧
    config.BindPort = 3000 ∧ config.DNS.Port = 53 ∧
    config.DNS.UpstreamDNS = ["tls://1.1.1.1", "tls://1.0.0.1"] :=
  parseConfig_absent_keeps_defaults idYamlLib fsAbsent rfl

/-- C10: with the configuration file absent, `parseConfig` returns success
with the store untouched, and in particular the filter sequence is served
exactly as it was — even when running the normalizer would have changed
it — because deduplication and identifier assignment run only after a
successful unmarshal of present bytes. -/
theorem parseConfig_absent_skips_normalization {β : Type} (L : YamlLib β)
    (fs : FS β) (c : configuration)
    (h : fs c.getConfigFilename = FileContent.absent) :
    parseConfig L fs c = (Except.ok (), c) ∧
    (updateUniqueFilterID (deduplicateFilters c.Filters) ≠ c.Filters →
      (parseConfig L fs c).2.Filters ≠
        updateUniqueFilterID (deduplicateFilters c.Filters)) := by
  have h1 := parseConfig_of_absent L fs c h
  refine ⟨h1, fun hne => ?_⟩
  rw [h1]
  exact fun hc => hne hc.symm

/-- C10 witness: a store holding two identical unidentified filters; the
normalizer would have collapsed and renumbered them, yet the absent-file
load returns them verbatim. -/
theorem parseConfig_absent_skips_normalization_witness :
    parseConfig idYamlLib fsAbsent configDup = (Except.ok (), configDup) ∧
    (parseConfig idYamlLib fsAbsent configDup).2.Filters ≠
      updateUniqueFilterID (deduplicateFilters configDup.Filters) :=
  ⟨(parseConfig_absent_skips_normalization idYamlLib fsAbsent configDup rfl).1,
   (parseConfig_absent_skips_normalization idYamlLib fsAbsent configDup rfl).2
     (by decide)⟩

/-- C7: with the first-run flag set, `configuration.write` returns success
and the filesystem is exactly the one before the call: no file is created
or modified. -/
theorem write_firstRun_no_write {β : Type} (c : configuration) (L : YamlLib β)
    (sw : SafeWrite β) (fs : FS β) (h : c.firstRun = true) :
    c.write L sw fs = (Except.ok (), fs) := by
  unfold configuration.write
  rw [h]
  rfl

/-- C7 witness: the default store with the first-run flag set, over an
atomic write primitive that would fail if it were ever consulted. -/
theorem write_firstRun_no_write_witness :
    configFirstRun.write idYamlLib swFail fsAbsent = (Except.ok (), fsAbsent) :=
  write_firstRun_no_write configFirstRun idYamlLib swFail fsAbsent rfl

/-- C8 counterexample: bytes whose deserialization fails with a decode
type error (log_file holds a sequence, verbose a well-typed true): the
decode reports the failure — the `yaml.Unmarshal` error the code only
logs — yet `getLogSettings` returns the partially decoded value with
verbose true, not the default logging sub-configuration. -/
theorem getLogSettings_type_error_not_default :
    (decodeLogSettingsE
        (Yaml.map [("log_file", Yaml.seq [Yaml.int 1]), ("verbose", Yaml.bool true)])
        { LogFile := "", Verbose := false }).1 = true ∧
    getLogSettings idYamlLib fsTypeErr config = { LogFile := "", Verbose := true } ∧
    getLogSettings idYamlLib fsTypeErr config ≠ { LogFile := "", Verbose := false } := by
  refine ⟨rfl, rfl, ?_⟩
  decide

/-- C8 amended: `getLogSettings` never aborts or propagates an error to
its caller; with the file absent, unreadable, or holding bytes whose
parse fails it yields the default logging sub-configuration, while on
bytes that parse it yields the decoded value — which, when the decode
fails with a type error, keeps the fields that decoded successfully and
is not necessarily the default. -/
theorem getLogSettings_error_handling {β : Type} (L : YamlLib β) (fs : FS β)
    (c : configuration) :
    (fs c.getConfigFilename = FileContent.absent →
      getLogSettings L fs c = { LogFile := "", Verbose := false }) ∧
    (∀ e, fs c.getConfigFilename = FileContent.ioError e →
      getLogSettings L fs c = { LogFile := "", Verbose := false }) ∧
    (∀ b e, fs c.getConfigFilename = FileContent.present b →
      L.parse b = Except.error e →
      getLogSettings L fs c = { LogFile := "", Verbose := false }) ∧
    (∀ b y, fs c.getConfigFilename = FileContent.present b →
      L.parse b = Except.ok y →
      getLogSettings L fs c =
        (decodeLogSettingsE y { LogFile := "", Verbose := false }).2) := by
  refine ⟨fun h => ?_, fun e h => ?_, fun b e h1 h2 => ?_, fun b y h1 h2 => ?_⟩
  · unfold getLogSettings readConfigFile
    rw [h]
  · unfold getLogSettings readConfigFile
    rw [h]
  · unfold getLogSettings readConfigFile
    rw [h1]
    simp only [h2]
  · unfold getLogSettings readConfigFile
    rw [h1]
    simp only [h2]

/-- C8 amended witness: the three hard-failure modes each yield the
default logging sub-configuration, and the decode-type-error document
yields its partially decoded value (verbose true) without any error
reaching the caller. -/
theorem getLogSettings_error_handling_witness :
    getLogSettings idYamlLib fsAbsent config = { LogFile := "", Verbose := false } ∧
    getLogSettings idYamlLib fsIOErr config = { LogFile := "", Verbose := false } ∧
    getLogSettings failYamlLib fsPresent config = { LogFile := "", Verbose := false } ∧
    getLogSettings idYamlLib fsTypeErr config = { LogFile := "", Verbose := true } :=
  ⟨(getLogSettings_error_handling idYamlLib fsAbsent config).1 rfl,
   (getLogSettings_error_handling idYamlLib fsIOErr config).2.1
     "permission denied" rfl,
   (getLogSettings_error_handling failYamlLib fsPresent config).2.2.1
     (Yaml.str "x") "yaml: did not find expected node content" rfl rfl,
   (getLogSettings_error_handling idYamlLib fsTypeErr config).2.2.2
     (Yaml.map [("log_file", Yaml.seq [Yaml.int 1]), ("verbose", Yaml.bool true)])
     (Yaml.map [("log_file", Yaml.seq [Yaml.int 1]), ("verbose", Yaml.bool true)])
     rfl rfl⟩

/-- C3: the marshal step emits the top-level keys in exactly the fixed
schema-declared order with schema_version last, and its output does not
depend on the derived-only TLS status fields. -/
theorem encodeConfiguration_key_order (c : configuration) :
    yamlKeys (encodeConfiguration c) =
      ["bind_host", "bind_port", "auth_name", "auth_pass", "language", "dns",
       "tls", "filters", "user_rules", "dhcp", "log_file", "verbose",
       "schema_version"] ∧
    ∀ st : tlsConfigStatus,
      encodeConfiguration
          { c with TLS := { c.TLS with tlsConfigStatus := st } } =
        encodeConfiguration c :=
  ⟨rfl, fun _ => rfl⟩

/-- C4 (code bug): the serialized tls section carries the TLS enabled flag
under the literal key "enaled" — the misspelled yaml tag at config.go
line 66 — not under "enabled" as the field name, its json tag and the
spec say. -/
theorem tls_section_key_misspelled :
    yamlKeys (encodeTlsConfig config.TLS) =
      ["enaled", "server_name", "force_https", "port_https",
       "port_dns_over_tls", "certificate_chain", "private_key"] ∧
    "enabled" ∉ yamlKeys (encodeTlsConfig config.TLS) := by
  refine ⟨rfl, ?_⟩
  decide

/-- C2 counterexample: on a concrete run where the configuration write
fails, `writeAllConfigs` returns that error with the filesystem exactly
as the failed write left it — the user-filter save, which would have
produced the observably different filesystem `fsMarked`, was not
attempted, contrary to the claim that both writes are always attempted. -/
theorem writeAllConfigs_stops_after_write_error :
    writeAllConfigs idYamlLib swFail saveMark config fsAbsent =
      (Except.error "Couldn't save YAML config", fsAbsent) ∧
    saveMark fsAbsent = some fsMarked ∧
    fsMarked "AdGuardHome.yaml" ≠ fsAbsent "AdGuardHome.yaml" := by
  refine ⟨rfl, rfl, ?_⟩
  simp [fsMarked, fsAbsent]

/-- C2 amended: the user-filter save is attempted only when the
configuration write succeeds; if `configuration.write` fails,
`writeAllConfigs` returns its error at once and the save is not applied,
and if it succeeds, the save is attempted and its failure surfaced. -/
theorem writeAllConfigs_sequencing {β : Type} (L : YamlLib β)
    (sw : SafeWrite β) (sv : FS β → Option (FS β)) (c : configuration)
    (fs : FS β) :
    (∀ e fs2, c.write L sw fs = (Except.error e, fs2) →
      writeAllConfigs L sw sv c fs = (Except.error e, fs2)) ∧
    (∀ fs2, c.write L sw fs = (Except.ok (), fs2) →
      writeAllConfigs L sw sv c fs =
        (match sv fs2 with
         | none => (Except.error "Couldn't save the user filter", fs2)
         | some fs3 => (Except.ok (), fs3))) := by
  unfold writeAllConfigs
  constructor
  · intro e fs2 h
    rw [h]
  · intro fs2 h
    rw [h]

/-- C2 amended witness: the failing-write run returns the write error with
the save unapplied; the succeeding-write run applies the save and ends in
its filesystem. -/
theorem writeAllConfigs_sequencing_witness :
    writeAllConfigs idYamlLib swFail saveMark config fsAbsent =
      (Except.error "Couldn't save YAML config", fsAbsent) ∧
    writeAllConfigs idYamlLib swStore saveMark config fsAbsent =
      (Except.ok (), fsMarked) :=
  ⟨(writeAllConfigs_sequencing idYamlLib swFail saveMark config fsAbsent).1
      "Couldn't save YAML config" fsAbsent rfl,
   (writeAllConfigs_sequencing idYamlLib swStore saveMark config fsAbsent).2
      _ rfl⟩

/-! ## Correctness of the identifier-assignment scan -/

/-- The free-identifier search never returns below its starting
candidate. -/
theorem nextFreeAux_ge : ∀ (fuel : Nat) (n : Int) (used : List Int),
    n ≤ nextFreeAux fuel n used := by
  intro fuel
  induction fuel with
  | zero => intro n used; exact le_refl n
  | succ k ih =>
    intro n used
    simp only [nextFreeAux]
    split
    · exact le_trans (by omega) (ih (n + 1) used)
    · exact le_refl n

/-- Filtering at a strictly higher threshold keeps strictly fewer
elements when the old threshold itself occurs in the list. -/
theorem length_filter_succ_lt (n : Int) (used : List Int) (h : n ∈ used) :
    (used.filter (fun m => n + 1 ≤ m)).length <
      (used.filter (fun m => n ≤ m)).length := by
  induction used with
  | nil => cases h
  | cons a rest ih =>
    have hsub : List.Sublist (rest.filter (fun m => decide (n + 1 ≤ m)))
        (rest.filter (fun m => decide (n ≤ m))) := by
      apply List.monotone_filter_right
      intro x hx
      simp only [decide_eq_true_eq] at hx ⊢
      omega
    have hlen := hsub.length_le
    simp only [List.filter_cons, decide_eq_true_eq]
    rcases List.mem_cons.mp h with h0 | h0
    · rw [if_pos (by omega : n ≤ a), if_neg (by omega : ¬ (n + 1 ≤ a))]
      simp only [List.length_cons]
      omega
    · have hrec := ih h0
      by_cases h1 : n ≤ a
      · by_cases h2 : n + 1 ≤ a
        · rw [if_pos h1, if_pos h2]
          simp only [List.length_cons]
          omega
        · rw [if_pos h1, if_neg h2]
          simp only [List.length_cons]
          omega
      · rw [if_neg h1, if_neg (by omega : ¬ (n + 1 ≤ a))]
        omega

/-- With enough fuel, the free-identifier search lands outside `used`. -/
theorem nextFreeAux_not_mem : ∀ (fuel : Nat) (n : Int) (used : List Int),
    (used.filter (fun m => n ≤ m)).length < fuel →
    nextFreeAux fuel n used ∉ used := by
  intro fuel
  induction fuel with
  | zero => intro n used h; omega
  | succ k ih =>
    intro n used h
    simp only [nextFreeAux]
    by_cases hm : n ∈ used
    · rw [if_pos hm]
      apply ih
      have := length_filter_succ_lt n used hm
      omega
    · rw [if_neg hm]
      exact hm

/-- `nextFree` always yields an identifier not yet in use. -/
theorem nextFree_not_mem (n : Int) (used : List Int) :
    nextFree n used ∉ used :=
  nextFreeAux_not_mem _ n used (Nat.lt_succ_self _)

/-- `nextFree` never yields an identifier below its starting candidate. -/
theorem nextFree_ge (n : Int) (used : List Int) : n ≤ nextFree n used :=
  nextFreeAux_ge _ n used

/-- Invariant of the assignment scan: starting from a positive candidate,
the emitted identifiers are duplicate-free, all outside the incoming
in-use set, and all strictly positive. -/
theorem assignIDs_nodup_pos : ∀ (l : List filter) (used : List Int)
    (next : Int), 1 ≤ next →
    ((assignIDs l used next).map filter.ID).Nodup ∧
    (∀ i ∈ (assignIDs l used next).map filter.ID, i ∉ used ∧ 0 < i) := by
  intro l
  induction l with
  | nil => intro used next _; simp [assignIDs]
  | cons f rest ih =>
    intro used next hnext
    simp only [assignIDs]
    split
    · -- assigned a fresh identifier
      have hge := nextFree_ge next used
      have hfree := nextFree_not_mem next used
      obtain ⟨ihnd, ihmem⟩ :=
        ih (nextFree next used :: used) (nextFree next used + 1) (by omega)
      refine ⟨?_, ?_⟩
      · simp only [List.map_cons, List.nodup_cons]
        refine ⟨fun hmem => ?_, ihnd⟩
        have := (ihmem _ hmem).1
        simp at this
      · intro i hi
        simp only [List.map_cons, List.mem_cons] at hi
        rcases hi with hi | hi
        · subst hi; exact ⟨hfree, by omega⟩
        · have := ihmem i hi
          refine ⟨fun hu => this.1 (List.mem_cons_of_mem _ hu), this.2⟩
    · -- kept its own identifier
      rename_i hkeep
      push_neg at hkeep
      obtain ⟨hpos, hnotused⟩ := hkeep
      obtain ⟨ihnd, ihmem⟩ := ih (f.ID :: used) next hnext
      refine ⟨?_, ?_⟩
      · simp only [List.map_cons, List.nodup_cons]
        refine ⟨fun hmem => ?_, ihnd⟩
        have := (ihmem _ hmem).1
        simp at this
      · intro i hi
        simp only [List.map_cons, List.mem_cons] at hi
        rcases hi with hi | hi
        · subst hi; exact ⟨hnotused, by omega⟩
        · have := ihmem i hi
          refine ⟨fun hu => this.1 (List.mem_cons_of_mem _ hu), this.2⟩

/-- Core normalization invariant: after deduplication and identifier
assignment, the identifiers are pairwise distinct and strictly
positive. -/
theorem normalize_nodup_pos (l : List filter) :
    ((updateUniqueFilterID (deduplicateFilters l)).map filter.ID).Nodup ∧
    ∀ f ∈ updateUniqueFilterID (deduplicateFilters l), 0 < f.ID := by
  obtain ⟨hnd, hmem⟩ :=
    assignIDs_nodup_pos (deduplicateFilters l) [] 1 (le_refl 1)
  refine ⟨hnd, fun f hf => ?_⟩
  exact (hmem f.ID (List.mem_map_of_mem filter.ID hf)).2

/-- C9: after the normalization invoked at the end of a successful
`parseConfig` on present bytes, the Config Store's filter identifiers are
pairwise distinct and every identifier is strictly positive. -/
theorem parseConfig_filters_unique_positive {β : Type} (L : YamlLib β)
    (fs : FS β) (c : configuration) (b : β) (y : Yaml)
    (h1 : fs c.getConfigFilename = FileContent.present b)
    (h2 : L.parse b = Except.ok y) :
    (((parseConfig L fs c).2.Filters).map filter.ID).Nodup ∧
    ∀ f ∈ (parseConfig L fs c).2.Filters, 0 < f.ID := by
  have hres : (parseConfig L fs c).2.Filters =
      updateUniqueFilterID
        (deduplicateFilters ((decodeConfiguration y c).Filters)) := by
    unfold parseConfig readConfigFile
    rw [h1]
    simp only [h2]
  rw [hres]
  exact normalize_nodup_pos _

/-- C9 witness: a successful parse on a present file; the resulting store
(the default filter table here) carries pairwise-distinct strictly
positive identifiers. -/
theorem parseConfig_filters_unique_positive_witness :
    (((parseConfig idYamlLib fsPresent config).2.Filters).map filter.ID).Nodup ∧
    ∀ f ∈ (parseConfig idYamlLib fsPresent config).2.Filters, 0 < f.ID :=
  parseConfig_filters_unique_positive idYamlLib fsPresent config
    (Yaml.str "x") (Yaml.str "x") rfl rfl

/-! ## Round-trip of the marshal and unmarshal steps -/

/-- Decoding the encoding of a string list recovers it. -/
theorem map_decodeStrElem_str (l : List String) :
    (l.map Yaml.str).map decodeStrElem = l := by
  induction l with
  | nil => rfl
  | cons a t ih => simp [decodeStrElem, ih]

/-- Decoding the encoding of one filter entry recovers it. -/
theorem decodeFilter_encodeFilter (f : filter) :
    decodeFilter (encodeFilter f) = f := rfl

/-- Decoding the encoding of a filter list recovers it. -/
theorem map_decodeFilter_encodeFilter (l : List filter) :
    (l.map encodeFilter).map decodeFilter = l := by
  induction l with
  | nil => rfl
  | cons a t ih => simp [decodeFilter_encodeFilter, ih]

/-- Decoding the encoding of a configuration over any previous store
recovers every persisted field from the encoded value, while the
unexported fields and the derived TLS status stay with the previous
store. -/
theorem decodeConfiguration_encodeConfiguration (c old : configuration) :
    decodeConfiguration (encodeConfiguration c) old =
      { c with
        ourConfigFilename := old.ourConfigFilename
        ourWorkingDir := old.ourWorkingDir
        firstRun := old.firstRun
        TLS := { c.TLS with tlsConfigStatus := old.TLS.tlsConfigStatus } } := by
  have h1 := map_decodeStrElem_str c.DNS.UpstreamDNS
  have h2 := map_decodeStrElem_str c.UserRules
  have h3 := map_decodeFilter_encodeFilter c.Filters
  calc decodeConfiguration (encodeConfiguration c) old
      = { c with
          ourConfigFilename := old.ourConfigFilename
          ourWorkingDir := old.ourWorkingDir
          firstRun := old.firstRun
          DNS := { c.DNS with
                   UpstreamDNS :=
                     (c.DNS.UpstreamDNS.map Yaml.str).map decodeStrElem }
          TLS := { c.TLS with tlsConfigStatus := old.TLS.tlsConfigStatus }
          Filters := (c.Filters.map encodeFilter).map decodeFilter
          UserRules := (c.UserRules.map Yaml.str).map decodeStrElem } := rfl
    _ = { c with
          ourConfigFilename := old.ourConfigFilename
          ourWorkingDir := old.ourWorkingDir
          firstRun := old.firstRun
          TLS := { c.TLS with tlsConfigStatus := old.TLS.tlsConfigStatus } } := by
        rw [h1, h2, h3]

/-- C5: marshalling a configuration and unmarshalling the resulting bytes
(over any byte layer faithful to the tree) yields a configuration equal
to the original in every persisted field; the derived-only TLS status and
the unexported fields are not round-tripped and stay with the
deserialization target. -/
theorem marshal_unmarshal_roundtrip {β : Type} (L : YamlLib β)
    (hL : ∀ v, L.parse (L.render v) = Except.ok v) (c old : configuration) :
    unmarshalConfiguration L (marshalConfiguration L c) old =
      Except.ok { c with
        ourConfigFilename := old.ourConfigFilename
        ourWorkingDir := old.ourWorkingDir
        firstRun := old.firstRun
        TLS := { c.TLS with tlsConfigStatus := old.TLS.tlsConfigStatus } } := by
  unfold unmarshalConfiguration marshalConfiguration
  rw [hL]
  exact congrArg Except.ok (decodeConfiguration_encodeConfiguration c old)

/-- C5 witness: round-tripping the default store through the tree-level
byte layer into a differing target recovers the default store's persisted
fields (here: everything except the first-run flag, which stays with the
target). -/
theorem marshal_unmarshal_roundtrip_witness :
    unmarshalConfiguration idYamlLib (marshalConfiguration idYamlLib config)
        configFirstRun =
      Except.ok { config with firstRun := true } :=
  marshal_unmarshal_roundtrip idYamlLib (fun _ => rfl) config configFirstRun
